import Mathlib

/-!
# Verification of the figure-extraction pipeline

Shallow embedding, in Lean 4, of the figure-extraction core of the
`alphascent` repository:

* `pipeline/figure_extraction/extract_figures.py`
  (caption recognition, per-caption search geometry, figure selection,
  the download rate limiter);
* `pipeline/figure_extraction/process_figures.py`
  (the image transcoder `downsample_image`);
* `pipeline/figure_extraction/extract_figures_batch.py`
  (the batch orchestrator: per-document processing boundary, failed
  ledger, worklist construction, the global-stop reaction to HTTP 503).

Geometry uses `ℚ` for PDF coordinates (the Python code computes with
floats; all constants involved — 10, 20, 50, 150, 200, 0.3, 0.6, 0.85 —
are exactly representable, and no claim here depends on float rounding).
Pixel dimensions use `ℕ`.
-/

namespace AlphaScent

/-! ## Figure selection (extract_figures.py, `select_figures_simple`,
`select_figures_vlm`)

A rendered figure, as the dict built by `extract_figures`:
`{'page', 'width', 'height', 'bytes', 'caption', 'caption_prefix', 'format'}`.
Only the fields selection looks at are carried; `bytes`/`caption` are
opaque payloads summarized by `caption` here. -/

structure Fig where
  page : ℕ
  width : ℕ
  height : ℕ
  caption : String
deriving DecidableEq, Repr

/-- `select_figures_simple(figures, min_width=400, min_height=200)`:
filter to figures with `width >= min_width and height >= min_height`,
teaser = first survivor, architecture = second survivor
(`valid[0] if len(valid) >= 1 else None`, `valid[1] if len(valid) >= 2 else None`). -/
def select_figures_simple (figures : List Fig) (min_width : ℕ) (min_height : ℕ) :
    Option Fig × Option Fig :=
  let valid := figures.filter fun f => decide (min_width ≤ f.width) && decide (min_height ≤ f.height)
  (valid.get? 0, valid.get? 1)

/-- Default value of the `min_width` parameter in the Python signature of
`select_figures_simple`. -/
def selectDefaultMinWidth : ℕ := 400

/-- Default value of the `min_height` parameter in the Python signature of
`select_figures_simple`. -/
def selectDefaultMinHeight : ℕ := 200

/-- `select_figures_vlm(figures)`: the body is
`return select_figures_simple(figures)`, i.e. the positional policy at its
default thresholds. -/
def select_figures_vlm (figures : List Fig) : Option Fig × Option Fig :=
  select_figures_simple figures selectDefaultMinWidth selectDefaultMinHeight

end AlphaScent

namespace AlphaScent

/-- C3: the positional selector filters to figures meeting the minimum
width/height and returns the first survivor as teaser and the second as
architecture; zero qualifying figures give `(none, none)`, exactly one gives
only a teaser, and the function is total (a Lean `def`, defined on every
input list) and deterministic. -/
theorem c3_positional_selector (figures : List Fig) (min_width min_height : ℕ) :
    (select_figures_simple figures min_width min_height =
      ((figures.filter fun f => decide (min_width ≤ f.width) && decide (min_height ≤ f.height)).get? 0,
       (figures.filter fun f => decide (min_width ≤ f.width) && decide (min_height ≤ f.height)).get? 1)) ∧
    ((figures.filter fun f => decide (min_width ≤ f.width) && decide (min_height ≤ f.height)) = [] →
      select_figures_simple figures min_width min_height = (none, none)) ∧
    (∀ f, (figures.filter fun f => decide (min_width ≤ f.width) && decide (min_height ≤ f.height)) = [f] →
      select_figures_simple figures min_width min_height = (some f, none)) ∧
    (∀ f g rest,
      (figures.filter fun f => decide (min_width ≤ f.width) && decide (min_height ≤ f.height)) = f :: g :: rest →
      select_figures_simple figures min_width min_height = (some f, some g)) := by
  refine ⟨rfl, ?_, ?_, ?_⟩
  · intro h
    simp [select_figures_simple, h]
  · intro f h
    simp [select_figures_simple, h]
  · intro f g rest h
    simp [select_figures_simple, h]

/-- Witness for `c3_positional_selector` at a concrete input: of the three
figures only the 500×300 and 450×250 ones qualify at thresholds 400/200, so
they become teaser and architecture. -/
theorem c3_witness :
    select_figures_simple
      [⟨0, 500, 300, "Figure 1"⟩, ⟨0, 100, 50, "Figure 2"⟩, ⟨1, 450, 250, "Figure 3"⟩] 400 200 =
      (some ⟨0, 500, 300, "Figure 1"⟩, some ⟨1, 450, 250, "Figure 3"⟩) :=
  (c3_positional_selector
      [⟨0, 500, 300, "Figure 1"⟩, ⟨0, 100, 50, "Figure 2"⟩, ⟨1, 450, 250, "Figure 3"⟩]
      400 200).2.2.2 _ _ [] (by decide)

/-- C10: `select_figures_vlm` is extensionally equal to
`select_figures_simple` at the latter's default thresholds
(min_width = 400, min_height = 200): its body just delegates. -/
theorem c10_vlm_equals_simple (figures : List Fig) :
    select_figures_vlm figures = select_figures_simple figures 400 200 := rfl

/-! ## Image transcoder (process_figures.py, `downsample_image`) -/

/-- PIL color modes that `Image.open` can produce for a decoded image.
(`PA` — palette with alpha — is a conversion-only mode in PIL: no image
decoder returns it, so it is not a mode of a decodable input.) -/
inductive PILMode
  | one      -- '1'  (bilevel)
  | L        -- 'L'  (8-bit grayscale)
  | LA       -- 'LA' (grayscale with alpha)
  | P        -- 'P'  (palette)
  | RGB      -- 'RGB'
  | RGBA     -- 'RGBA'
  | CMYK     -- 'CMYK'
  | YCbCr    -- 'YCbCr'
  | I        -- 'I'  (32-bit integer)
  | F        -- 'F'  (32-bit float)
deriving DecidableEq, Repr

/-- A decoded input image: its pixel dimensions and color mode. -/
structure PILImage where
  width : ℕ
  height : ℕ
  mode : PILMode
deriving DecidableEq, Repr

/-- The observable result of `downsample_image`: dimensions and mode of the
image handed to the WebP encoder, plus whether the code pasted the image
onto an opaque white `RGB` background (the `RGBA`/`LA` branch). -/
structure TranscodedImage where
  width : ℕ
  height : ℕ
  mode : PILMode
  compositedOnWhite : Bool
deriving DecidableEq, Repr

/-- The mode-normalization cascade of `downsample_image`:
`if img.mode not in ('RGB', 'L')`: `CMYK` → plain convert to RGB;
`RGBA`/`LA` → paste onto a white RGB background using the alpha band as
mask; `P` → plain convert; anything else → plain convert.
Returns the resulting mode and whether the white-composite branch ran. -/
def normalizeMode : PILMode → PILMode × Bool
  | .RGB => (.RGB, false)
  | .L => (.L, false)
  | .CMYK => (.RGB, false)
  | .RGBA => (.RGB, true)
  | .LA => (.RGB, true)
  | .P => (.RGB, false)
  | _ => (.RGB, false)

/-- Does a mode carry an alpha channel? (Among decodable modes: `RGBA`, `LA`.) -/
def hasAlpha : PILMode → Bool
  | .RGBA => true
  | .LA => true
  | _ => false

/-- `downsample_image(img_bytes, max_width, quality)` (process_figures.py):
if `img.width > max_width`, resize to `(max_width, int(img.height * ratio))`
with `ratio = max_width / img.width` (truncating division on positive
values = `ℕ` division); then normalize the color mode; then encode as WebP.
Quality and the resampling filter do not affect the claims and are omitted. -/
def downsample_image (img : PILImage) (max_width : ℕ) : TranscodedImage :=
  let wh : ℕ × ℕ :=
    if max_width < img.width
      then (max_width, img.height * max_width / img.width)
      else (img.width, img.height)
  let mc := normalizeMode img.mode
  ⟨wh.1, wh.2, mc.1, mc.2⟩

/-- C4: for every decodable input image, the transcoder's output width is
at most the configured maximum; an input not wider than the maximum passes
through unscaled; when it scales, aspect ratio is preserved within one
pixel of rounding (the output height is within 1 of the exact rescaled
height); any alpha-channel input is composited onto an opaque white
background and the output mode never carries alpha; any mode other than
8-bit grayscale (`L`) or plain `RGB` is converted to `RGB`. -/
theorem c4_transcoder_bounds (img : PILImage) (max_width : ℕ)
    (hw : 0 < img.width) :
    (downsample_image img max_width).width ≤ max_width ∧
    (img.width ≤ max_width →
      (downsample_image img max_width).width = img.width ∧
      (downsample_image img max_width).height = img.height) ∧
    (max_width < img.width →
      (downsample_image img max_width).width = max_width ∧
      ((img.height * max_width : ℚ) / img.width - 1 <
          ((downsample_image img max_width).height : ℚ) ∧
        ((downsample_image img max_width).height : ℚ) ≤
          (img.height * max_width : ℚ) / img.width)) ∧
    (hasAlpha img.mode = true →
      (downsample_image img max_width).compositedOnWhite = true) ∧
    hasAlpha (downsample_image img max_width).mode = false ∧
    (img.mode ≠ .L → img.mode ≠ .RGB → (downsample_image img max_width).mode = .RGB) := by
  have hq : (0 : ℚ) < (img.width : ℚ) := by exact_mod_cast hw
  refine ⟨?_, ?_, ?_, ?_, ?_, ?_⟩
  · by_cases h : max_width < img.width
    · simp [downsample_image, h]
    · simp [downsample_image, h]
      omega
  · intro h
    have h' : ¬ max_width < img.width := by omega
    simp [downsample_image, h']
  · intro h
    have hh : (downsample_image img max_width).height =
        img.height * max_width / img.width := by
      simp [downsample_image, h]
    have hww : (downsample_image img max_width).width = max_width := by
      simp [downsample_image, h]
    have hdm := Nat.div_add_mod (img.height * max_width) img.width
    have hmod := Nat.mod_lt (img.height * max_width) hw
    have hc1 : (img.width : ℚ) * ((img.height * max_width / img.width : ℕ) : ℚ) +
        ((img.height * max_width % img.width : ℕ) : ℚ) =
        (img.height : ℚ) * (max_width : ℚ) := by exact_mod_cast hdm
    have hc2 : ((img.height * max_width % img.width : ℕ) : ℚ) < (img.width : ℚ) := by
      exact_mod_cast hmod
    have hc3 : (0 : ℚ) ≤ ((img.height * max_width % img.width : ℕ) : ℚ) :=
      Nat.cast_nonneg _
    refine ⟨hww, ?_, ?_⟩
    · rw [hh, sub_lt_iff_lt_add, div_lt_iff₀ hq]
      linarith
    · rw [hh, le_div_iff₀ hq]
      linarith
  · intro h
    cases hmode : img.mode <;> simp_all [downsample_image, hasAlpha, normalizeMode]
  · cases hmode : img.mode <;> simp_all [downsample_image, hasAlpha, normalizeMode]
  · intro h1 h2
    cases hmode : img.mode <;> simp_all [downsample_image, normalizeMode]

/-- Witness for `c4_transcoder_bounds`: a 1000×633 RGBA input downsampled
to max width 800. -/
theorem c4_witness :
    (downsample_image ⟨1000, 633, .RGBA⟩ 800).width ≤ 800 ∧
    (1000 ≤ 800 →
      (downsample_image ⟨1000, 633, .RGBA⟩ 800).width = 1000 ∧
      (downsample_image ⟨1000, 633, .RGBA⟩ 800).height = 633) ∧
    (800 < 1000 →
      (downsample_image ⟨1000, 633, .RGBA⟩ 800).width = 800 ∧
      ((633 * 800 : ℚ) / 1000 - 1 < ((downsample_image ⟨1000, 633, .RGBA⟩ 800).height : ℚ) ∧
        ((downsample_image ⟨1000, 633, .RGBA⟩ 800).height : ℚ) ≤ (633 * 800 : ℚ) / 1000)) ∧
    (hasAlpha PILMode.RGBA = true →
      (downsample_image ⟨1000, 633, .RGBA⟩ 800).compositedOnWhite = true) ∧
    hasAlpha (downsample_image ⟨1000, 633, .RGBA⟩ 800).mode = false ∧
    (PILMode.RGBA ≠ .L → PILMode.RGBA ≠ .RGB →
      (downsample_image ⟨1000, 633, .RGBA⟩ 800).mode = .RGB) :=
  c4_transcoder_bounds ⟨1000, 633, .RGBA⟩ 800 (by decide)

/-! ## Caption recognition (extract_figures.py, line 110)

`text = str(block[4]).strip()` followed by
`re.match(r'^\s*(Figure|Fig\.?)\s+\d+', text, re.IGNORECASE)`.

Characters are modelled over the ASCII fragment the pattern exercises:
`\s` is the six ASCII whitespace characters, `\d` the ASCII digits, and
`re.IGNORECASE` is letter-case folding (the repository's caption texts are
ASCII; Unicode extensions of these classes are orthogonal to the claims). -/

/-- The characters matched by the regex class `\s` (ASCII). -/
def isWS (c : Char) : Bool :=
  c == ' ' || c == '\t' || c == '\n' || c == '\r' || c == '\x0b' || c == '\x0c'

/-- Drop a maximal leading run of whitespace (the greedy `\s*`; also
one side of Python's `str.strip`). -/
def dropWS : List Char → List Char
  | [] => []
  | c :: cs => if isWS c then dropWS cs else c :: cs

/-- Python `str.strip()`: remove leading and trailing whitespace. -/
def pyStrip (s : List Char) : List Char :=
  dropWS ((dropWS s.reverse).reverse)

/-- Case-insensitive literal match: if `s` starts with `pat` up to
`Char.toLower`, return the rest of `s`. -/
def stripCI : List Char → List Char → Option (List Char)
  | [], s => some s
  | _ :: _, [] => none
  | p :: ps, c :: cs => if p.toLower = c.toLower then stripCI ps cs else none

/-- The regex tail `\s+\d`: at least one whitespace character, then a
digit.  (`\s+` is greedy, but since no digit is whitespace this equals:
head is whitespace, and after dropping all whitespace the head is a
digit; `\d+` matches iff `\d` does, so one digit suffices for
match existence.) -/
def tailWSDigit (rest : List Char) : Bool :=
  match rest with
  | [] => false
  | c :: cs =>
    isWS c &&
      (match dropWS cs with
       | [] => false
       | d :: _ => d.isDigit)

/-- Match existence for `^\s*(Figure|Fig\.?)\s+\d+` with `re.IGNORECASE`:
after the leading whitespace, one of the three alternatives `Figure`,
`Fig.`, `Fig` (case-insensitive), then `\s+\d`.  The regex engine's
backtracking over the alternation is exactly this disjunction. -/
def captionMatch (s : List Char) : Bool :=
  let s1 := dropWS s
  ((stripCI "figure".data s1).elim false tailWSDigit) ||
    ((stripCI "fig.".data s1).elim false tailWSDigit) ||
    ((stripCI "fig".data s1).elim false tailWSDigit)

/-- A text block is recognized as a caption iff the regex matches its
stripped text (extract_figures.py lines 109–111). -/
def isCaptionText (s : List Char) : Bool :=
  captionMatch (pyStrip s)

/-- C6 counterexample: the block text `"Fig.3"` — the `Fig.<integer>` form
with no whitespace between the prefix and the integer — is NOT recognized
as a caption, because the pattern requires `\s+` before the digits.  This
refutes the claim that `"Fig.<integer>"` with no space is accepted. -/
theorem c6_counterexample :
    isCaptionText ['F', 'i', 'g', '.', '3'] = false := by decide

/-- The caption pattern, stated declaratively: some maximal-irrelevant
decomposition into leading whitespace, a case-insensitive occurrence of
`Figure`, `Fig.` or `Fig`, at least one whitespace character, and a digit. -/
def CaptionSpec (s : List Char) : Prop :=
  ∃ w p w2 d t, s = w ++ p ++ w2 ++ d :: t ∧
    (∀ c ∈ w, isWS c = true) ∧
    (p.map Char.toLower = "figure".data ∨ p.map Char.toLower = "fig.".data ∨
      p.map Char.toLower = "fig".data) ∧
    w2 ≠ [] ∧ (∀ c ∈ w2, isWS c = true) ∧ d.isDigit = true

/-- Dropping a run of whitespace in front does not change `dropWS`. -/
theorem dropWS_append_ws (w t : List Char) (hw : ∀ c ∈ w, isWS c = true) :
    dropWS (w ++ t) = dropWS t := by
  induction w with
  | nil => rfl
  | cons c cs ih =>
    have hc : isWS c = true := hw c (by simp)
    simp only [List.cons_append, dropWS, hc, if_pos]
    exact ih fun c hc => hw c (by simp [hc])

/-- `dropWS` splits off a whitespace prefix. -/
theorem dropWS_decomp (s : List Char) :
    ∃ w, s = w ++ dropWS s ∧ (∀ c ∈ w, isWS c = true) := by
  induction s with
  | nil => exact ⟨[], rfl, by simp⟩
  | cons c cs ih =>
    by_cases hc : isWS c = true
    · obtain ⟨w, hw1, hw2⟩ := ih
      refine ⟨c :: w, ?_, ?_⟩
      · simp only [dropWS, hc, if_pos, List.cons_append]
        exact congrArg (c :: ·) hw1
      · intro x hx
        rcases List.mem_cons.1 hx with h | h
        · exact h ▸ hc
        · exact hw2 x h
    · refine ⟨[], ?_, by simp⟩
      simp [dropWS, hc]

/-- Digits are not whitespace. -/
theorem isDigit_not_isWS (c : Char) (h : c.isDigit = true) : isWS c = false := by
  by_contra hne
  have hws : isWS c = true := by
    cases hcc : isWS c
    · exact absurd hcc hne
    · rfl
  simp only [isWS, Bool.or_eq_true, beq_iff_eq] at hws
  rcases hws with ((((h1 | h1) | h1) | h1) | h1) | h1 <;> subst h1 <;> simp_all [Char.isDigit]

/-- `stripCI` succeeds exactly on a case-folded occurrence of the pattern. -/
theorem stripCI_iff (p s r : List Char) :
    stripCI p s = some r ↔ ∃ q, s = q ++ r ∧ q.map Char.toLower = p.map Char.toLower := by
  induction p generalizing s with
  | nil =>
    constructor
    · intro h
      have hsr : s = r := by simpa [stripCI] using h
      exact ⟨[], by simp [hsr], by simp⟩
    · rintro ⟨q, hq1, hq2⟩
      have hq : q = [] := by simpa using congrArg List.length hq2
      subst hq
      simp only [List.nil_append] at hq1
      simp [stripCI, hq1]
  | cons pc ps ih =>
    cases s with
    | nil =>
      constructor
      · intro h
        simp [stripCI] at h
      · rintro ⟨q, hq1, hq2⟩
        have hq : q ≠ [] := by
          intro hq0
          subst hq0
          simp at hq2
        cases q with
        | nil => exact absurd rfl hq
        | cons a as => simp at hq1
    | cons c cs =>
      constructor
      · intro h
        simp only [stripCI] at h
        by_cases hc : pc.toLower = c.toLower
        · rw [if_pos hc] at h
          obtain ⟨q, hq1, hq2⟩ := (ih cs).1 h
          exact ⟨c :: q, by simp [hq1], by simp [hq2, hc]⟩
        · rw [if_neg hc] at h
          exact absurd h (by simp)
      · rintro ⟨q, hq1, hq2⟩
        cases q with
        | nil => simp at hq2
        | cons a as =>
          simp only [List.cons_append, List.cons.injEq] at hq1
          simp only [List.map_cons, List.cons.injEq] at hq2
          obtain ⟨rfl, hq1⟩ := hq1
          obtain ⟨hlow, hq2⟩ := hq2
          simp only [stripCI, hlow.symm, if_pos]
          exact (ih cs).2 ⟨as, hq1, hq2⟩

/-- The tail matcher agrees with its declarative reading. -/
theorem tailWSDigit_iff (r : List Char) :
    tailWSDigit r = true ↔
      ∃ w2 d t, r = w2 ++ d :: t ∧ w2 ≠ [] ∧ (∀ c ∈ w2, isWS c = true) ∧
        d.isDigit = true := by
  constructor
  · intro h
    cases r with
    | nil => simp [tailWSDigit] at h
    | cons c cs =>
      simp only [tailWSDigit, Bool.and_eq_true] at h
      obtain ⟨hc, htl⟩ := h
      cases hdef : dropWS cs with
      | nil => rw [hdef] at htl; simp at htl
      | cons d t =>
        rw [hdef] at htl
        obtain ⟨w, hw1, hw2⟩ := dropWS_decomp cs
        rw [hdef] at hw1
        refine ⟨c :: w, d, t, ?_, by simp, ?_, htl⟩
        · simp [hw1]
        · intro x hx
          rcases List.mem_cons.1 hx with hxx | hxx
          · exact hxx ▸ hc
          · exact hw2 x hxx
  · rintro ⟨w2, d, t, rfl, hw2ne, hw2, hd⟩
    cases w2 with
    | nil => exact absurd rfl hw2ne
    | cons c cs =>
      have hc : isWS c = true := hw2 c (by simp)
      have hcs : ∀ x ∈ cs, isWS x = true := fun x hx => hw2 x (by simp [hx])
      simp only [List.cons_append, tailWSDigit, hc, Bool.true_and]
      rw [dropWS_append_ws cs (d :: t) hcs]
      simp only [dropWS, isDigit_not_isWS d hd]
      simp [hd]

/-- The matcher `captionMatch` agrees with `CaptionSpec`. -/
theorem captionMatch_iff (s : List Char) :
    captionMatch s = true ↔ CaptionSpec s := by
  constructor
  · intro h
    simp only [captionMatch, Bool.or_eq_true] at h
    obtain ⟨w, hw1, hw2⟩ := dropWS_decomp s
    have main : ∀ pat : List Char,
        (stripCI pat (dropWS s)).elim false tailWSDigit = true →
        ∃ p w2 d t, dropWS s = p ++ w2 ++ d :: t ∧
          p.map Char.toLower = pat.map Char.toLower ∧
          w2 ≠ [] ∧ (∀ c ∈ w2, isWS c = true) ∧ d.isDigit = true := by
      intro pat hpat
      cases hstr : stripCI pat (dropWS s) with
      | none => rw [hstr] at hpat; simp at hpat
      | some r =>
        rw [hstr] at hpat
        simp only [Option.elim] at hpat
        obtain ⟨q, hq1, hq2⟩ := (stripCI_iff pat (dropWS s) r).1 hstr
        obtain ⟨w2, d, t, hr1, hr2, hr3, hr4⟩ := (tailWSDigit_iff r).1 hpat
        exact ⟨q, w2, d, t, by simp [hq1, hr1], hq2, hr2, hr3, hr4⟩
    rcases h with (h | h) | h
    · obtain ⟨p, w2, d, t, h1, h2, h3, h4, h5⟩ := main "figure".data h
      refine ⟨w, p, w2, d, t, ?_, hw2, ?_, h3, h4, h5⟩
      · rw [hw1, h1]; simp
      · left; simpa using h2
    · obtain ⟨p, w2, d, t, h1, h2, h3, h4, h5⟩ := main "fig.".data h
      refine ⟨w, p, w2, d, t, ?_, hw2, ?_, h3, h4, h5⟩
      · rw [hw1, h1]; simp
      · right; left; simpa using h2
    · obtain ⟨p, w2, d, t, h1, h2, h3, h4, h5⟩ := main "fig".data h
      refine ⟨w, p, w2, d, t, ?_, hw2, ?_, h3, h4, h5⟩
      · rw [hw1, h1]; simp
      · right; right; simpa using h2
  · rintro ⟨w, p, w2, d, t, rfl, hw, hp, hw2ne, hw2, hd⟩
    have hp0 : p ≠ [] := by
      intro h0
      subst h0
      rcases hp with h | h | h <;> simpa using congrArg List.length h
    obtain ⟨a, as, rfl⟩ : ∃ a as, p = a :: as := by
      cases p with
      | nil => exact absurd rfl hp0
      | cons a as => exact ⟨a, as, rfl⟩
    have hlowf : a.toLower = 'f' := by
      rcases hp with h | h | h <;>
      · have h' := congrArg (fun l => l.headD 'x') h
        simp only [List.map_cons, List.headD_cons] at h'
        exact h'.trans rfl
    have haws : isWS a = false := by
      cases hws : isWS a
      · rfl
      · exfalso
        simp only [isWS, Bool.or_eq_true, beq_iff_eq] at hws
        rcases hws with ((((h1 | h1) | h1) | h1) | h1) | h1 <;> subst h1 <;>
          exact absurd hlowf (by decide)
    have hdws : dropWS (w ++ (a :: as) ++ w2 ++ d :: t) = (a :: as) ++ w2 ++ d :: t := by
      rw [List.append_assoc, List.append_assoc]
      rw [dropWS_append_ws w _ hw]
      rw [← List.append_assoc]
      simp [dropWS, haws]
    have hmatch : ∀ pat : List Char, (a :: as).map Char.toLower = pat.map Char.toLower →
        (stripCI pat ((a :: as) ++ w2 ++ d :: t)).elim false tailWSDigit = true := by
      intro pat hpat
      have hsome : stripCI pat ((a :: as) ++ w2 ++ d :: t) = some (w2 ++ d :: t) :=
        (stripCI_iff pat _ _).2 ⟨a :: as, by simp, hpat⟩
      rw [hsome]
      simp only [Option.elim]
      exact (tailWSDigit_iff _).2 ⟨w2, d, t, rfl, hw2ne, hw2, hd⟩
    simp only [captionMatch, hdws, Bool.or_eq_true]
    rcases hp with h | h | h
    · exact Or.inl (Or.inl (hmatch "figure".data (by simpa using h)))
    · exact Or.inl (Or.inr (hmatch "fig.".data (by simpa using h)))
    · exact Or.inr (hmatch "fig".data (by simpa using h))

/-- C6 (amended): a text block is recognized as a caption iff its stripped
text decomposes as optional whitespace, a case-insensitive occurrence of
`Figure`, `Fig.` or `Fig`, AT LEAST ONE whitespace character, and a digit.
In particular `Fig.<integer>` with no whitespace before the integer is
rejected (see `c6_counterexample`). -/
theorem c6_caption_pattern (s : List Char) :
    isCaptionText s = true ↔ CaptionSpec (pyStrip s) := by
  unfold isCaptionText
  exact captionMatch_iff (pyStrip s)

/-! ## Page geometry (extract_figures.py, `extract_figures` /
`_get_horizontal_bounds` / `_find_images_in_rect`)

Coordinates follow fitz: `x0, y0` is the top-left corner, `x1, y1` the
bottom-right, and y grows downward. -/

/-- A `fitz.Rect`. -/
structure Rect where
  x0 : ℚ
  y0 : ℚ
  x1 : ℚ
  y1 : ℚ
deriving DecidableEq, Repr

/-- A caption dict as built in `extract_figures`:
`{'text': text[:200], 'prefix': ..., 'bbox': bbox, 'y': bbox.y0}`.
The `prefix` and `y` entries are functions of `text` and `bbox`, so dict
(in)equality — which `_get_horizontal_bounds` uses — is (in)equality of
this pair. -/
structure Caption where
  text : String
  bbox : Rect
deriving DecidableEq, Repr

instance : Inhabited Caption := ⟨⟨"", ⟨0, 0, 0, 0⟩⟩⟩

/-- Python `abs` on a coordinate difference. -/
def ratAbs (x : ℚ) : ℚ := if x < 0 then -x else x

/-- The sort key of `_get_horizontal_bounds`:
`(c['bbox'].x0 + c['bbox'].x1) / 2`. -/
def centerX (c : Caption) : ℚ := (c.bbox.x0 + c.bbox.x1) / 2

/-- Comparison by horizontal center, for the row sort. -/
def centerLE (a b : Caption) : Prop := centerX a ≤ centerX b

instance : DecidableRel centerLE :=
  fun a b => inferInstanceAs (Decidable (centerX a ≤ centerX b))

/-- `list.index(cap)`: index of the first element equal to `cap`
(the element is always present at the call site). -/
def idxOfCap (cap : Caption) : List Caption → ℕ
  | [] => 0
  | c :: cs => if c = cap then 0 else idxOfCap cap cs + 1

/-- `_get_horizontal_bounds(caption_info, figure_captions, page_width)`:
captions whose `y` is within 50 of this caption's (and that are not this
caption) form a side-by-side row; the row is sorted by horizontal center
(Python's stable sort; `insertionSort` on a total preorder is stable too),
and the bounds are the right edge of the left neighbor + 20 (or 0) and the
left edge of the right neighbor − 20 (or the page width).  A caption with
no row-mates gets its own bbox padded by `max(50, width * 0.3)`, clamped
to the page. -/
def get_horizontal_bounds (cap : Caption) (figure_captions : List Caption)
    (page_width : ℚ) : ℚ × ℚ :=
  let captions_same_row := figure_captions.filter fun c =>
    decide (ratAbs (c.bbox.y0 - cap.bbox.y0) < 50) && decide (c ≠ cap)
  if captions_same_row = [] then
    let margin := max 50 ((cap.bbox.x1 - cap.bbox.x0) * (3 / 10))
    (max 0 (cap.bbox.x0 - margin), min page_width (cap.bbox.x1 + margin))
  else
    let all_in_row := List.insertionSort centerLE (cap :: captions_same_row)
    let idx := idxOfCap cap all_in_row
    let left := if 0 < idx then (all_in_row.getD (idx - 1) cap).bbox.x1 + 20 else 0
    let right := if idx < all_in_row.length - 1 then
        (all_in_row.getD (idx + 1) cap).bbox.x0 - 20
      else page_width
    (left, right)

/-- Modelled from the spec: "captions within a small vertical tolerance of
each other are treated as a side-by-side row; their rectangle is split at
the midpoints between adjacent captions in that row (with a fixed
gutter)".  Same row detection and adjacency as the code, but each bound is
the midpoint between the caption and its adjacent row neighbor (midpoint
of the facing edges), inset by the 20-point gutter.  Used only to compare
the spec's wording against `get_horizontal_bounds`. -/
def specMidpointBounds (cap : Caption) (figure_captions : List Caption)
    (page_width : ℚ) : ℚ × ℚ :=
  let captions_same_row := figure_captions.filter fun c =>
    decide (ratAbs (c.bbox.y0 - cap.bbox.y0) < 50) && decide (c ≠ cap)
  if captions_same_row = [] then
    let margin := max 50 ((cap.bbox.x1 - cap.bbox.x0) * (3 / 10))
    (max 0 (cap.bbox.x0 - margin), min page_width (cap.bbox.x1 + margin))
  else
    let all_in_row := List.insertionSort centerLE (cap :: captions_same_row)
    let idx := idxOfCap cap all_in_row
    let left := if 0 < idx then
        ((all_in_row.getD (idx - 1) cap).bbox.x1 + cap.bbox.x0) / 2 + 20
      else 0
    let right := if idx < all_in_row.length - 1 then
        (cap.bbox.x1 + (all_in_row.getD (idx + 1) cap).bbox.x0) / 2 - 20
      else page_width
    (left, right)

/-- Clamp a vertical coordinate to the page:
`max(0, min(v, page_h))` (extract_figures.py lines 132–133). -/
def clampV (page_h x : ℚ) : ℚ := max 0 (min x page_h)

/-- Safe top for caption `i` before clamping:
`figure_captions[i-1]['bbox'].y1 + 10 if i > 0 else 0`. -/
def safeTopRaw (captions : List Caption) (i : ℕ) : ℚ :=
  if 0 < i then (captions.getD (i - 1) default).bbox.y1 + 10 else 0

/-- Search bottom for caption `i` before clamping:
`min(caption_bbox.y0, figure_captions[i+1]['bbox'].y0 - 10)` if a next
caption exists, else `caption_bbox.y0`. -/
def bottomRaw (captions : List Caption) (i : ℕ) : ℚ :=
  if i < captions.length - 1 then
    min (captions.getD i default).bbox.y0
      ((captions.getD (i + 1) default).bbox.y0 - 10)
  else (captions.getD i default).bbox.y0

/-- The initial search top for caption `i` (before the tall-figure
re-expansion): pinned to the clamped safe top under the tight-cluster
policy (`available < 150`), else extended upward by `0.6 * page_h`, and
re-pinned via `max(safe_top, y0 - 200)` if the window is under 30 tall. -/
def searchTop2 (page_h : ℚ) (captions : List Caption) (i : ℕ) : ℚ :=
  let cap := captions.getD i default
  let safe_top := clampV page_h (safeTopRaw captions i)
  let bottom := clampV page_h (bottomRaw captions i)
  let is_tight := bottom - safe_top < 150
  let top := if is_tight then safe_top else max safe_top (cap.bbox.y0 - page_h * (3 / 5))
  if bottom - top < 30 then max safe_top (cap.bbox.y0 - 200) else top

/-- fitz `Rect.intersects`: the rectangles share a non-empty common
rectangle (strict overlap on both axes). -/
def intersects (a b : Rect) : Bool :=
  decide (max a.x0 b.x0 < min a.x1 b.x1) && decide (max a.y0 b.y0 < min a.y1 b.y1)

/-- `_find_images_in_rect(page, rect, left, right)`: the placement rects of
the page's images (flattened over `get_image_rects`) that intersect `rect`
and whose center lies within `[rect.y0, rect.y1]` vertically and
`[left, right]` horizontally. -/
def find_images_in_rect (page_images : List Rect) (r : Rect) (left right : ℚ) :
    List Rect :=
  page_images.filter fun b =>
    intersects b r &&
      decide (r.y0 ≤ (b.y0 + b.y1) / 2) && decide ((b.y0 + b.y1) / 2 ≤ r.y1) &&
      decide (left ≤ (b.x0 + b.x1) / 2) && decide ((b.x0 + b.x1) / 2 ≤ right)

/-- `min` over a nonempty coordinate list (0 on `[]`, unreached). -/
def qMin : List ℚ → ℚ
  | [] => 0
  | [x] => x
  | x :: y :: xs => min x (qMin (y :: xs))

/-- `max` over a nonempty coordinate list (0 on `[]`, unreached). -/
def qMax : List ℚ → ℚ
  | [] => 0
  | [x] => x
  | x :: y :: xs => max x (qMax (y :: xs))

/-- The tall-figure re-expansion decision (extract_figures.py lines
147–153): if images were collected and the topmost reaches more than 20
above the initial top, propose `new_top = max(safe_top, min_top - 10)`;
the search is re-run from it only when it is still more than 20 above.
Returns the final top and whether the image search is re-run. -/
def expandedTop (safe_top top : ℚ) (imgs : List Rect) : ℚ × Bool :=
  if imgs = [] then (top, false)
  else if qMin (imgs.map fun r => r.y0) < top - 20 then
    if max safe_top (qMin (imgs.map fun r => r.y0) - 10) < top - 20 then
      (max safe_top (qMin (imgs.map fun r => r.y0) - 10), true)
    else (top, false)
  else (top, false)

/-- The search loop body for caption `i` up to the tall-figure
re-expansion: returns the final search top and the final collected image
list (re-collected from the expanded rectangle when the re-expansion
fires). -/
def searchState (page_h page_w : ℚ) (captions : List Caption) (images : List Rect)
    (i : ℕ) : ℚ × List Rect :=
  let cap := captions.getD i default
  let safe_top := clampV page_h (safeTopRaw captions i)
  let bottom := clampV page_h (bottomRaw captions i)
  let top := searchTop2 page_h captions i
  let lr := get_horizontal_bounds cap captions page_w
  let imgs := find_images_in_rect images ⟨lr.1, top, lr.2, bottom⟩ lr.1 lr.2
  let et := expandedTop safe_top top imgs
  (et.1,
    if et.2 then find_images_in_rect images ⟨lr.1, et.1, lr.2, bottom⟩ lr.1 lr.2
    else imgs)

/-- The search region finally used for caption `i`: horizontal bounds from
`get_horizontal_bounds`, vertical span from the clamped bottom and the
(possibly re-expanded) top. -/
def searchRect (page_h page_w : ℚ) (captions : List Caption) (images : List Rect)
    (i : ℕ) : Rect :=
  let lr := get_horizontal_bounds (captions.getD i default) captions page_w
  ⟨lr.1, (searchState page_h page_w captions images i).1, lr.2,
    clampV page_h (bottomRaw captions i)⟩

/-- The candidate figure rectangle for caption `i`: union bounding box of
the collected images padded by 10, clamped to `safe_top`, the page, and
the caption's bottom edge + 3; rejected when it fails the minimum
width/height thresholds (30/60 tight, 40/80 otherwise) or exceeds
`0.85 * page_h` in height.  `none` when no images were collected or the
rectangle is rejected. -/
def candidateRect (page_h page_w : ℚ) (captions : List Caption) (images : List Rect)
    (i : ℕ) : Option (Rect × Bool) :=
  let cap := captions.getD i default
  let safe_top := clampV page_h (safeTopRaw captions i)
  let bottom := clampV page_h (bottomRaw captions i)
  let is_tight : Bool := decide (bottom - safe_top < 150)
  let st := searchState page_h page_w captions images i
  let imgs := st.2
  if imgs = [] then none
  else
    let bTop := qMin (imgs.map fun r => r.y0)
    -- the code also computes `max(r.y1 ...)` (bbox[1]) but the figure
    -- rectangle's bottom only uses the caption's own bottom edge
    let bL := qMin (imgs.map fun r => r.x0)
    let bR := qMax (imgs.map fun r => r.x1)
    let fig_rect : Rect := ⟨max 0 (bL - 10), max safe_top (bTop - 10),
      min page_w (bR + 10), min page_h (cap.bbox.y1 + 3)⟩
    let mh : ℚ := if is_tight then 30 else 40
    let mw : ℚ := if is_tight then 60 else 80
    if fig_rect.y1 - fig_rect.y0 < mh ∨ fig_rect.x1 - fig_rect.x0 < mw ∨
        fig_rect.y1 - fig_rect.y0 > page_h * (17 / 20) then
      none
    else some (fig_rect, is_tight)

/-- The per-page extraction loop: one iteration per caption (in sorted
order), producing at most one rendered figure per caption.  `render`
abstracts `page.get_pixmap(...)`: rendering can fail (the candidate is
dropped) or yield a figure. -/
def extract_figures_page (render : Bool → Rect → Option Fig) (page_h page_w : ℚ)
    (captions : List Caption) (images : List Rect) : List Fig :=
  (List.range captions.length).filterMap fun i =>
    (candidateRect page_h page_w captions images i).bind fun rc => render rc.2 rc.1

/-! ### Safe-zone lemmas for the Locator -/

theorem getD_eq_getElem_of_lt {α : Type} (l : List α) (n : ℕ) (d : α)
    (h : n < l.length) : l.getD n d = l[n] := by
  induction l generalizing n with
  | nil => simp at h
  | cons a as ih =>
    cases n with
    | zero => rfl
    | succ m =>
      simp only [List.getD_cons_succ]
      exact ih m (by simpa using h)

theorem getD_mem_of_lt {α : Type} (l : List α) (n : ℕ) (d : α) (h : n < l.length) :
    l.getD n d ∈ l := by
  rw [getD_eq_getElem_of_lt l n d h]
  exact List.getElem_mem h

/-- In a caption list sorted by vertical position, `y0` is monotone. -/
theorem sorted_y0_le (captions : List Caption)
    (hsorted : captions.Pairwise fun a b => a.bbox.y0 ≤ b.bbox.y0)
    (i j : ℕ) (hij : i ≤ j) (hj : j < captions.length) :
    (captions.getD i default).bbox.y0 ≤ (captions.getD j default).bbox.y0 := by
  rcases Nat.lt_or_ge i j with h | h
  · rw [getD_eq_getElem_of_lt captions i default (lt_trans h hj),
      getD_eq_getElem_of_lt captions j default hj]
    exact List.pairwise_iff_getElem.1 hsorted i j (lt_trans h hj) hj h
  · rw [le_antisymm hij h]

/-- The search bottom never exceeds the caption's own top edge. -/
theorem bottomRaw_le (captions : List Caption) (i : ℕ) :
    bottomRaw captions i ≤ (captions.getD i default).bbox.y0 := by
  unfold bottomRaw
  split
  · exact min_le_left _ _
  · exact le_refl _

/-- The initial search top never rises above the clamped safe top. -/
theorem searchTop2_ge (page_h : ℚ) (captions : List Caption) (i : ℕ) :
    clampV page_h (safeTopRaw captions i) ≤ searchTop2 page_h captions i := by
  simp only [searchTop2]
  set st := clampV page_h (safeTopRaw captions i) with hst
  set bo := clampV page_h (bottomRaw captions i) with hbo
  set cap := captions.getD i default with hcap
  by_cases h1 : bo - st < 150
  · rw [if_pos h1]
    by_cases h2 : bo - st < 30
    · rw [if_pos h2]
      exact le_max_left _ _
    · rw [if_neg h2]
  · rw [if_neg h1]
    by_cases h3 : bo - max st (cap.bbox.y0 - page_h * (3 / 5)) < 30
    · rw [if_pos h3]
      exact le_max_left _ _
    · rw [if_neg h3]
      exact le_max_left _ _

/-- The re-expanded top never rises above the safe top, given the initial
top did not. -/
theorem expandedTop_fst_ge (safe_top top : ℚ) (imgs : List Rect)
    (h : safe_top ≤ top) : safe_top ≤ (expandedTop safe_top top imgs).1 := by
  unfold expandedTop
  split
  · exact h
  · split
    · split
      · exact le_max_left _ _
      · exact h
    · exact h

/-- The final search top (after the tall-figure re-expansion) never rises
above the clamped safe top either. -/
theorem searchState_fst_ge (page_h page_w : ℚ) (captions : List Caption)
    (images : List Rect) (i : ℕ) :
    clampV page_h (safeTopRaw captions i) ≤
      (searchState page_h page_w captions images i).1 :=
  expandedTop_fst_ge _ _ _ (searchTop2_ge page_h captions i)

end AlphaScent

namespace AlphaScent

/-- C2: on a page whose captions are sorted by vertical position and whose
caption boxes lie within the page, the Locator produces at most one
candidate per caption (at most N figures for N captions); every nonempty
search region stays inside the claim's safe zone — its bottom is at most
`min(y0_i, y0_(i+1) - 10)` (just `y0_i` for the last caption) and its top
is at least `y1_(i-1) + 10` (0 for the first) — and the search regions of
two distinct captions are disjoint vertical intervals. -/
theorem c2_locator_safe_zones
    (page_h page_w : ℚ) (captions : List Caption) (images : List Rect)
    (render : Bool → Rect → Option Fig)
    (hpos : 0 < page_h)
    (hsorted : captions.Pairwise fun a b => a.bbox.y0 ≤ b.bbox.y0)
    (hvalid : ∀ c ∈ captions,
      0 ≤ c.bbox.y0 ∧ c.bbox.y0 ≤ c.bbox.y1 ∧ c.bbox.y1 ≤ page_h) :
    (extract_figures_page render page_h page_w captions images).length ≤
        captions.length ∧
    (∀ i, i < captions.length →
      (searchRect page_h page_w captions images i).y0 <
          (searchRect page_h page_w captions images i).y1 →
        safeTopRaw captions i ≤ (searchRect page_h page_w captions images i).y0 ∧
          (searchRect page_h page_w captions images i).y1 ≤ bottomRaw captions i) ∧
    (∀ i j, i < j → j < captions.length → ∀ y,
      (searchRect page_h page_w captions images i).y0 ≤ y →
      y ≤ (searchRect page_h page_w captions images i).y1 →
      ¬((searchRect page_h page_w captions images j).y0 ≤ y ∧
          y ≤ (searchRect page_h page_w captions images j).y1)) := by
  have hH : 0 ≤ page_h := le_of_lt hpos
  have hstge : ∀ i, clampV page_h (safeTopRaw captions i) ≤
      (searchRect page_h page_w captions images i).y0 := fun i =>
    searchState_fst_ge page_h page_w captions images i
  have hy1 : ∀ i, (searchRect page_h page_w captions images i).y1 =
      clampV page_h (bottomRaw captions i) := fun _ => rfl
  refine ⟨?_, ?_, ?_⟩
  · unfold extract_figures_page
    calc (List.filterMap _ (List.range captions.length)).length
        ≤ (List.range captions.length).length := List.length_filterMap_le _ _
      _ = captions.length := List.length_range _
  · intro i hi hne
    have hcap := hvalid _ (getD_mem_of_lt captions i default hi)
    have hrb_ph : bottomRaw captions i ≤ page_h :=
      le_trans (bottomRaw_le captions i) (le_trans hcap.2.1 hcap.2.2)
    have hbo : clampV page_h (bottomRaw captions i) = max 0 (bottomRaw captions i) := by
      unfold clampV
      rw [min_eq_left hrb_ph]
    have h0st : (0 : ℚ) ≤ clampV page_h (safeTopRaw captions i) := le_max_left 0 _
    have hne' : (searchRect page_h page_w captions images i).y0 <
        clampV page_h (bottomRaw captions i) := hne
    have hbr_pos : 0 < bottomRaw captions i := by
      by_contra hneg
      push_neg at hneg
      have hz : clampV page_h (bottomRaw captions i) = 0 := by
        rw [hbo]
        exact max_eq_left hneg
      rw [hz] at hne'
      exact absurd (lt_of_le_of_lt (le_trans h0st (hstge i)) hne') (lt_irrefl 0)
    have hst_nonneg : 0 ≤ safeTopRaw captions i := by
      unfold safeTopRaw
      split
      · rename_i hi0
        have hprev := hvalid _ (getD_mem_of_lt captions (i - 1) default (by omega))
        linarith [hprev.1, hprev.2.1]
      · exact le_refl 0
    by_cases hst_le : safeTopRaw captions i ≤ page_h
    · have habove : clampV page_h (safeTopRaw captions i) = safeTopRaw captions i := by
        unfold clampV
        rw [min_eq_left hst_le]
        exact max_eq_right hst_nonneg
      refine ⟨?_, ?_⟩
      · exact le_trans (le_of_eq habove.symm) (hstge i)
      · rw [hy1 i, hbo]
        exact le_of_eq (max_eq_right (le_of_lt hbr_pos))
    · exfalso
      push_neg at hst_le
      have hclamp : clampV page_h (safeTopRaw captions i) = page_h := by
        unfold clampV
        rw [min_eq_right (le_of_lt hst_le)]
        exact max_eq_right hH
      have h1 : page_h ≤ (searchRect page_h page_w captions images i).y0 :=
        le_trans (le_of_eq hclamp.symm) (hstge i)
      have h2 : clampV page_h (bottomRaw captions i) ≤ page_h := by
        rw [hbo]
        exact max_le hH hrb_ph
      linarith
  · intro i j hij hj y hyi0 hyi1 hyj
    obtain ⟨hyj0, hyj1⟩ := hyj
    have hi : i < captions.length := lt_trans hij hj
    have hcapi := hvalid _ (getD_mem_of_lt captions i default hi)
    have hjpos : 0 < j := by omega
    have hzi : (searchRect page_h page_w captions images i).y1 ≤
        max 0 (bottomRaw captions i) := by
      rw [hy1 i]
      unfold clampV
      exact max_le_max (le_refl 0) (min_le_left _ _)
    have hzi_cap : (searchRect page_h page_w captions images i).y1 ≤
        (captions.getD i default).bbox.y0 :=
      le_trans hzi (max_le hcapi.1 (bottomRaw_le captions i))
    have hprevj := hvalid _ (getD_mem_of_lt captions (j - 1) default (by omega))
    have hstj : safeTopRaw captions j = (captions.getD (j - 1) default).bbox.y1 + 10 := by
      unfold safeTopRaw
      rw [if_pos hjpos]
    have hzj : min (safeTopRaw captions j) page_h ≤
        (searchRect page_h page_w captions images j).y0 :=
      le_trans (le_max_right 0 _) (hstge j)
    by_cases hA : safeTopRaw captions j ≤ page_h
    · have hminj : min (safeTopRaw captions j) page_h = safeTopRaw captions j :=
        min_eq_left hA
      have hsort := sorted_y0_le captions hsorted i (j - 1) (by omega) (by omega)
      rw [hminj, hstj] at hzj
      linarith [hprevj.2.1]
    · push_neg at hA
      have hminj : min (safeTopRaw captions j) page_h = page_h :=
        min_eq_right (le_of_lt hA)
      rw [hminj] at hzj
      have hnext := hvalid _ (getD_mem_of_lt captions (i + 1) default (by omega))
      have hbri : bottomRaw captions i ≤
          (captions.getD (i + 1) default).bbox.y0 - 10 := by
        unfold bottomRaw
        rw [if_pos (by omega : i < captions.length - 1)]
        exact min_le_right _ _
      have h2 : max 0 (bottomRaw captions i) < page_h := by
        apply max_lt hpos
        have := hnext.2.1
        have := hnext.2.2
        linarith
      linarith

/-- Witness for `c2_locator_safe_zones`: a 600×800 page with two stacked
captions within the page, sorted by vertical position. -/
theorem c2_witness :
    (extract_figures_page (fun _ _ => none) 800 600
        [⟨"Figure 1", ⟨10, 10, 100, 20⟩⟩, ⟨"Figure 2", ⟨10, 300, 100, 310⟩⟩] []).length ≤
      ([⟨"Figure 1", ⟨10, 10, 100, 20⟩⟩, ⟨"Figure 2", ⟨10, 300, 100, 310⟩⟩] :
        List Caption).length ∧
    (∀ i, i < ([⟨"Figure 1", ⟨10, 10, 100, 20⟩⟩, ⟨"Figure 2", ⟨10, 300, 100, 310⟩⟩] :
        List Caption).length →
      (searchRect 800 600
          [⟨"Figure 1", ⟨10, 10, 100, 20⟩⟩, ⟨"Figure 2", ⟨10, 300, 100, 310⟩⟩] [] i).y0 <
          (searchRect 800 600
            [⟨"Figure 1", ⟨10, 10, 100, 20⟩⟩, ⟨"Figure 2", ⟨10, 300, 100, 310⟩⟩] [] i).y1 →
        safeTopRaw [⟨"Figure 1", ⟨10, 10, 100, 20⟩⟩, ⟨"Figure 2", ⟨10, 300, 100, 310⟩⟩] i ≤
            (searchRect 800 600
              [⟨"Figure 1", ⟨10, 10, 100, 20⟩⟩, ⟨"Figure 2", ⟨10, 300, 100, 310⟩⟩] [] i).y0 ∧
          (searchRect 800 600
              [⟨"Figure 1", ⟨10, 10, 100, 20⟩⟩, ⟨"Figure 2", ⟨10, 300, 100, 310⟩⟩] [] i).y1 ≤
            bottomRaw [⟨"Figure 1", ⟨10, 10, 100, 20⟩⟩, ⟨"Figure 2", ⟨10, 300, 100, 310⟩⟩] i) ∧
    (∀ i j, i < j →
      j < ([⟨"Figure 1", ⟨10, 10, 100, 20⟩⟩, ⟨"Figure 2", ⟨10, 300, 100, 310⟩⟩] :
        List Caption).length → ∀ y,
      (searchRect 800 600
          [⟨"Figure 1", ⟨10, 10, 100, 20⟩⟩, ⟨"Figure 2", ⟨10, 300, 100, 310⟩⟩] [] i).y0 ≤ y →
      y ≤ (searchRect 800 600
          [⟨"Figure 1", ⟨10, 10, 100, 20⟩⟩, ⟨"Figure 2", ⟨10, 300, 100, 310⟩⟩] [] i).y1 →
      ¬((searchRect 800 600
            [⟨"Figure 1", ⟨10, 10, 100, 20⟩⟩, ⟨"Figure 2", ⟨10, 300, 100, 310⟩⟩] [] j).y0 ≤ y ∧
          y ≤ (searchRect 800 600
            [⟨"Figure 1", ⟨10, 10, 100, 20⟩⟩, ⟨"Figure 2", ⟨10, 300, 100, 310⟩⟩] [] j).y1)) :=
  c2_locator_safe_zones 800 600
    [⟨"Figure 1", ⟨10, 10, 100, 20⟩⟩, ⟨"Figure 2", ⟨10, 300, 100, 310⟩⟩] []
    (fun _ _ => none)
    (by norm_num)
    (by norm_num [List.pairwise_cons])
    (by
      intro c hc
      simp only [List.mem_cons, List.not_mem_nil, or_false] at hc
      rcases hc with rfl | rfl <;> norm_num)

/-! ### Horizontal bounds (C5) -/

/-- C5 (amended): for a caption in a side-by-side row (here the middle of
three row-mates with increasing horizontal centers), the horizontal search
bounds are the right EDGE of the left row neighbor plus the fixed
20-point gutter and the left EDGE of the right row neighbor minus the
gutter — not midpoints; and a caption with no row-mates gets bounds padded
outward from its own bounding box by `max(50, 0.3 * width)`, clamped to
the page. -/
theorem c5_horizontal_bounds (c0 c1 c2 : Caption) (page_w : ℚ)
    (h01 : ratAbs (c0.bbox.y0 - c1.bbox.y0) < 50)
    (h21 : ratAbs (c2.bbox.y0 - c1.bbox.y0) < 50)
    (hne0 : c0 ≠ c1) (hne2 : c2 ≠ c1)
    (hc01 : centerX c0 < centerX c1) (hc12 : centerX c1 < centerX c2)
    (d : Caption) (others : List Caption)
    (hfar : ∀ c ∈ others, c = d ∨ 50 ≤ ratAbs (c.bbox.y0 - d.bbox.y0)) :
    get_horizontal_bounds c1 [c0, c1, c2] page_w =
      (c0.bbox.x1 + 20, c2.bbox.x0 - 20) ∧
    get_horizontal_bounds d others page_w =
      (max 0 (d.bbox.x0 - max 50 ((d.bbox.x1 - d.bbox.x0) * (3 / 10))),
        min page_w (d.bbox.x1 + max 50 ((d.bbox.x1 - d.bbox.x0) * (3 / 10)))) := by
  constructor
  · have hfil : ([c0, c1, c2].filter fun c =>
        decide (ratAbs (c.bbox.y0 - c1.bbox.y0) < 50) && decide (c ≠ c1)) = [c0, c2] := by
      simp [List.filter_cons, h01, h21, hne0, hne2]
    have hle02 : centerLE c0 c2 := le_of_lt (lt_trans hc01 hc12)
    have hnle10 : ¬ centerLE c1 c0 := not_le.2 hc01
    have hle12 : centerLE c1 c2 := le_of_lt hc12
    have hsort : List.insertionSort centerLE [c1, c0, c2] = [c0, c1, c2] := by
      simp [List.insertionSort, List.orderedInsert, hle02, hnle10, hle12]
    have hidx : idxOfCap c1 [c0, c1, c2] = 1 := by
      simp [idxOfCap, hne0]
    simp only [get_horizontal_bounds, hfil]
    rw [if_neg (by simp : ¬([c0, c2] : List Caption) = [])]
    rw [show (c1 :: [c0, c2]) = [c1, c0, c2] from rfl, hsort, hidx]
    norm_num
  · have hfil : (others.filter fun c =>
        decide (ratAbs (c.bbox.y0 - d.bbox.y0) < 50) && decide (c ≠ d)) = [] := by
      rw [List.filter_eq_nil_iff]
      intro c hc
      rcases hfar c hc with rfl | hge
      · simp
      · simp [not_lt.2 hge]
    simp only [get_horizontal_bounds, hfil]
    simp

/-- Witness for `c5_horizontal_bounds`: three captions on one row at
y = 500 with centers 50, 350, 550, and an isolated caption far above. -/
theorem c5_witness :
    get_horizontal_bounds ⟨"Figure 2", ⟨300, 500, 400, 510⟩⟩
        [⟨"Figure 1", ⟨0, 500, 100, 510⟩⟩, ⟨"Figure 2", ⟨300, 500, 400, 510⟩⟩,
          ⟨"Figure 3", ⟨500, 500, 600, 510⟩⟩] 612 =
      ((⟨"Figure 1", ⟨0, 500, 100, 510⟩⟩ : Caption).bbox.x1 + 20,
        (⟨"Figure 3", ⟨500, 500, 600, 510⟩⟩ : Caption).bbox.x0 - 20) ∧
    get_horizontal_bounds ⟨"Figure 4", ⟨100, 100, 200, 110⟩⟩
        [⟨"Figure 4", ⟨100, 100, 200, 110⟩⟩] 612 =
      (max 0 ((⟨"Figure 4", ⟨100, 100, 200, 110⟩⟩ : Caption).bbox.x0 -
          max 50 (((⟨"Figure 4", ⟨100, 100, 200, 110⟩⟩ : Caption).bbox.x1 -
            (⟨"Figure 4", ⟨100, 100, 200, 110⟩⟩ : Caption).bbox.x0) * (3 / 10))),
        min 612 ((⟨"Figure 4", ⟨100, 100, 200, 110⟩⟩ : Caption).bbox.x1 +
          max 50 (((⟨"Figure 4", ⟨100, 100, 200, 110⟩⟩ : Caption).bbox.x1 -
            (⟨"Figure 4", ⟨100, 100, 200, 110⟩⟩ : Caption).bbox.x0) * (3 / 10)))) :=
  c5_horizontal_bounds
    ⟨"Figure 1", ⟨0, 500, 100, 510⟩⟩ ⟨"Figure 2", ⟨300, 500, 400, 510⟩⟩
    ⟨"Figure 3", ⟨500, 500, 600, 510⟩⟩ 612
    (by norm_num [ratAbs])
    (by norm_num [ratAbs])
    (by simp)
    (by simp)
    (by norm_num [centerX])
    (by norm_num [centerX])
    ⟨"Figure 4", ⟨100, 100, 200, 110⟩⟩
    [⟨"Figure 4", ⟨100, 100, 200, 110⟩⟩]
    (by intro c hc; left; simpa using hc)

/-- C5 counterexample: two captions on one row, the left one spanning
x ∈ [0, 100] and the right one x ∈ [300, 400].  For the right caption the
code's left bound is the left neighbor's right edge plus the gutter,
`100 + 20 = 120`, while the spec's "midpoint between adjacent captions
(with the gutter)" gives `(100 + 300)/2 + 20 = 220`.  The claim that the
bounds are midpoints offset by the gutter is false at this input. -/
theorem c5_counterexample :
    get_horizontal_bounds ⟨"Figure 2", ⟨300, 500, 400, 510⟩⟩
        [⟨"Figure 1", ⟨0, 500, 100, 510⟩⟩, ⟨"Figure 2", ⟨300, 500, 400, 510⟩⟩] 612 =
      (120, 612) ∧
    specMidpointBounds ⟨"Figure 2", ⟨300, 500, 400, 510⟩⟩
        [⟨"Figure 1", ⟨0, 500, 100, 510⟩⟩, ⟨"Figure 2", ⟨300, 500, 400, 510⟩⟩] 612 =
      (220, 612) ∧
    ((120, 612) : ℚ × ℚ) ≠ (220, 612) := by
  have hAB : (⟨"Figure 1", ⟨0, 500, 100, 510⟩⟩ : Caption) ≠
      ⟨"Figure 2", ⟨300, 500, 400, 510⟩⟩ := by
    intro h
    exact absurd (congrArg Caption.text h) (by decide)
  have hfil : (([⟨"Figure 1", ⟨0, 500, 100, 510⟩⟩,
      ⟨"Figure 2", ⟨300, 500, 400, 510⟩⟩] : List Caption).filter fun c =>
        decide (ratAbs (c.bbox.y0 -
          (⟨"Figure 2", ⟨300, 500, 400, 510⟩⟩ : Caption).bbox.y0) < 50) &&
        decide (c ≠ ⟨"Figure 2", ⟨300, 500, 400, 510⟩⟩)) =
      [⟨"Figure 1", ⟨0, 500, 100, 510⟩⟩] := by
    norm_num [List.filter_cons, ratAbs, hAB]
  have hsort : List.insertionSort centerLE
      [(⟨"Figure 2", ⟨300, 500, 400, 510⟩⟩ : Caption), ⟨"Figure 1", ⟨0, 500, 100, 510⟩⟩] =
      [⟨"Figure 1", ⟨0, 500, 100, 510⟩⟩, ⟨"Figure 2", ⟨300, 500, 400, 510⟩⟩] := by
    have h : ¬ centerLE (⟨"Figure 2", ⟨300, 500, 400, 510⟩⟩ : Caption)
        ⟨"Figure 1", ⟨0, 500, 100, 510⟩⟩ := by
      norm_num [centerLE, centerX]
    simp [List.insertionSort, List.orderedInsert, h]
  have hidx : idxOfCap (⟨"Figure 2", ⟨300, 500, 400, 510⟩⟩ : Caption)
      [⟨"Figure 1", ⟨0, 500, 100, 510⟩⟩, ⟨"Figure 2", ⟨300, 500, 400, 510⟩⟩] = 1 := by
    simp [idxOfCap, hAB]
  refine ⟨?_, ?_, by norm_num⟩
  · simp only [get_horizontal_bounds, hfil]
    rw [if_neg (by simp : ¬([⟨"Figure 1", ⟨0, 500, 100, 510⟩⟩] : List Caption) = [])]
    rw [show ((⟨"Figure 2", ⟨300, 500, 400, 510⟩⟩ : Caption) ::
        [⟨"Figure 1", ⟨0, 500, 100, 510⟩⟩]) =
      [⟨"Figure 2", ⟨300, 500, 400, 510⟩⟩, ⟨"Figure 1", ⟨0, 500, 100, 510⟩⟩] from rfl,
      hsort, hidx]
    norm_num
  · simp only [specMidpointBounds, hfil]
    rw [if_neg (by simp : ¬([⟨"Figure 1", ⟨0, 500, 100, 510⟩⟩] : List Caption) = [])]
    rw [show ((⟨"Figure 2", ⟨300, 500, 400, 510⟩⟩ : Caption) ::
        [⟨"Figure 1", ⟨0, 500, 100, 510⟩⟩]) =
      [⟨"Figure 2", ⟨300, 500, 400, 510⟩⟩, ⟨"Figure 1", ⟨0, 500, 100, 510⟩⟩] from rfl,
      hsort, hidx]
    norm_num

/-! ## Batch orchestrator (extract_figures_batch.py) -/

/-- What the body of `process_paper`'s `try` block did for one document,
as observed by the exception handlers at the document-processing boundary
(extract_figures_batch.py lines 66–151):
* `httpError s m u`: a `requests.HTTPError` whose attached response has
  HTTP status `s` and message `str(e) = m` was raised (the arXiv download
  and the D1 catalog client go through `requests`), after `u` figure
  uploads had been counted;
* `httpErrorNoResponse m u`: a `requests.HTTPError` with
  `e.response is None`;
* `upstreamHttpError s m u`: an upstream HTTP response with status `s`
  whose error does NOT surface as `requests.HTTPError` — a 503 (or any
  status) from the R2 upload arrives as a botocore `ClientError`, and any
  D1 catalog failure, an HTTP 503 from the D1 endpoint included, is
  re-raised as a plain `Exception("D1 API failed: ...")` by
  d1_client.py lines 23–24.  Both reach only the generic
  `except Exception` handler of `process_paper`, which never looks at a
  status code;
* `otherError m u`: any other exception, with `str(e) = m`;
* `completed t a`: selection finished with a teaser present iff `t` and an
  architecture figure present iff `a`, and (when one is present) the
  subsequent uploads and catalog inserts succeeded. -/
inductive PipelineEvent
  | httpError (status : ℕ) (msg : String) (uploadedBefore : ℕ)
  | httpErrorNoResponse (msg : String) (uploadedBefore : ℕ)
  | upstreamHttpError (status : ℕ) (msg : String) (uploadedBefore : ℕ)
  | otherError (msg : String) (uploadedBefore : ℕ)
  | completed (teaser arch : Bool)
deriving DecidableEq, Repr

/-- The per-document result dict initialized at the top of `process_paper`:
`{'paper_id', 'success', 'figures_uploaded', 'error'}`. -/
structure Outcome where
  paper_id : String
  success : Bool
  figures_uploaded : ℕ
  error : Option String
deriving DecidableEq, Repr

/-- Result of one `process_paper` call: either the distinguished
`ServiceUnavailableError` escapes the boundary, or the result dict is
returned; `ledgerMarked` records whether `mark_failed_extraction` appended
the document id to the failed ledger during the call. -/
inductive ProcessResult
  | serviceUnavailable
  | returned (r : Outcome) (ledgerMarked : Bool)
deriving DecidableEq, Repr

/-- `process_paper((paper_id, r2_config, d1_config, verbose))`:
the document-processing boundary.  `completed false false` is the
"No figures" outcome (ledger mark, error field set, success stays false);
any other `completed` is a success with the figure count; a
`requests.HTTPError` with a response of status 503 re-raises as
`ServiceUnavailableError` BEFORE the ledger write; every other exception —
upstream HTTP errors arriving as `ClientError` or as the wrapped D1
`Exception` included, whatever their status — is converted into the
result dict with its message and a ledger mark. -/
def process_paper (paper_id : String) (evt : PipelineEvent) : ProcessResult :=
  match evt with
  | .completed false false =>
      .returned ⟨paper_id, false, 0, some "No figures"⟩ true
  | .completed t a =>
      .returned ⟨paper_id, true, (if t then 1 else 0) + (if a then 1 else 0), none⟩ false
  | .httpError s m u =>
      if s = 503 then .serviceUnavailable
      else .returned ⟨paper_id, false, u, some m⟩ true
  | .httpErrorNoResponse m u => .returned ⟨paper_id, false, u, some m⟩ true
  | .upstreamHttpError _ m u => .returned ⟨paper_id, false, u, some m⟩ true
  | .otherError m u => .returned ⟨paper_id, false, u, some m⟩ true

/-- Does the event trigger the global-stop check at
extract_figures_batch.py lines 137–139?  Only a `requests.HTTPError`
whose response has HTTP status 503 does — upstream 503s surfacing as
other exception types (`upstreamHttpError`) do not. -/
def isRateLimited : PipelineEvent → Bool
  | .httpError s _ _ => s == 503
  | _ => false

/-- Aggregate result of one batch run as driven by `main`'s `collect`
loop: the per-document outcomes collected in order, the paper ids
appended to the failed-extraction ledger, and whether the run was aborted
by `ServiceUnavailableError` (pool terminated, `SystemExit` raised). -/
structure BatchResult where
  outcomes : List Outcome
  ledger : List String
  aborted : Bool
deriving DecidableEq, Repr

/-- `collect` over the in-order stream of `process_paper` results
(extract_figures_batch.py lines 197–223): on `ServiceUnavailableError` the
pool is terminated and `SystemExit` is raised, so no further document is
consumed; otherwise the result is appended and the run continues. -/
def runBatch : List (String × PipelineEvent) → BatchResult
  | [] => ⟨[], [], false⟩
  | (pid, evt) :: rest =>
    match process_paper pid evt with
    | .serviceUnavailable => ⟨[], [], true⟩
    | .returned r marked =>
      let b := runBatch rest
      ⟨r :: b.outcomes, (if marked then [pid] else []) ++ b.ledger, b.aborted⟩

/-- Process exit status of the run: `raise SystemExit(str(exc))` with a
non-empty message exits with code 1; normal completion exits 0. -/
def exitCode (b : BatchResult) : ℕ := if b.aborted then 1 else 0

/-- Worklist construction in `main` (extract_figures_batch.py lines
173–188): an explicit `paper_id` selects single-paper mode, bypassing both
the catalog query and the failed-ledger exclusion; otherwise the papers
returned by the catalog query are filtered against the ledger and capped
at `max_count`.  `worker_args` is built by mapping over exactly this
list, so membership here is dispatch. -/
def buildWorklist (paper_id : Option String)
    (papers_needing_figures : List String)
    (failed : List String) (max_count : ℕ) : List String :=
  match paper_id with
  | some pid => [pid]
  | none => (papers_needing_figures.filter fun p => decide (p ∉ failed)).take max_count

/-- Any event that is not the rate-limit signal yields a returned outcome,
never an escaped exception. -/
theorem process_paper_returned (pid : String) (evt : PipelineEvent)
    (h : isRateLimited evt = false) :
    ∃ r marked, process_paper pid evt = .returned r marked := by
  cases evt with
  | httpError s m u =>
    have hs : ¬ s = 503 := by simpa [isRateLimited] using h
    exact ⟨⟨pid, false, u, some m⟩, true, by simp [process_paper, hs]⟩
  | httpErrorNoResponse m u => exact ⟨_, _, rfl⟩
  | upstreamHttpError s m u => exact ⟨_, _, rfl⟩
  | otherError m u => exact ⟨_, _, rfl⟩
  | completed t a =>
    cases t <;> cases a
    · exact ⟨_, _, rfl⟩
    · exact ⟨_, _, rfl⟩
    · exact ⟨_, _, rfl⟩
    · exact ⟨_, _, rfl⟩

/-- A batch prefix free of rate-limit signals is processed in full and its
outcomes and ledger marks are kept. -/
theorem runBatch_append (pre tail : List (String × PipelineEvent))
    (hpre : ∀ q ∈ pre, isRateLimited q.2 = false) :
    runBatch (pre ++ tail) =
      ⟨(runBatch pre).outcomes ++ (runBatch tail).outcomes,
        (runBatch pre).ledger ++ (runBatch tail).ledger,
        (runBatch tail).aborted⟩ := by
  induction pre with
  | nil => simp [runBatch]
  | cons q qs ih =>
    obtain ⟨qp, qe⟩ := q
    obtain ⟨r, marked, hq⟩ := process_paper_returned qp qe (hpre (qp, qe) (by simp))
    have hqs : ∀ x ∈ qs, isRateLimited x.2 = false := fun x hx => hpre x (by simp [hx])
    have ihq := ih hqs
    simp only [List.cons_append, runBatch, hq]
    simp [ihq, List.append_assoc]

end AlphaScent

namespace AlphaScent

/-- C1 counterexample: an upstream HTTP response with status 503 during
the R2 upload of document "2501.00001" (after one figure upload was
already counted).  boto3 raises a botocore `ClientError`, not a
`requests.HTTPError`, so the 503 check at extract_figures_batch.py lines
138–139 is never reached: contrary to the claim, the orchestrator does
NOT raise the distinguished error — it returns a per-document outcome,
writes the document to the failed ledger, keeps the pool running (the
next document is still processed), and the run exits zero. -/
theorem c1_counterexample :
    process_paper "2501.00001"
        (.upstreamHttpError 503 "An error occurred (503) when calling PutObject" 1) ≠
      .serviceUnavailable ∧
    process_paper "2501.00001"
        (.upstreamHttpError 503 "An error occurred (503) when calling PutObject" 1) =
      .returned ⟨"2501.00001", false, 1,
        some "An error occurred (503) when calling PutObject"⟩ true ∧
    runBatch [("2501.00001",
        .upstreamHttpError 503 "An error occurred (503) when calling PutObject" 1),
        ("2501.00002", .completed true false)] =
      ⟨[⟨"2501.00001", false, 1,
          some "An error occurred (503) when calling PutObject"⟩,
          ⟨"2501.00002", true, 1, none⟩],
        ["2501.00001"], false⟩ ∧
    exitCode (runBatch [("2501.00001",
        .upstreamHttpError 503 "An error occurred (503) when calling PutObject" 1),
        ("2501.00002", .completed true false)]) = 0 := by
  refine ⟨?_, rfl, rfl, rfl⟩
  intro h
  exact ProcessResult.noConfusion h

/-- C1 (amended): only a 503 surfacing as a `requests.HTTPError` with a
response — in this pipeline, the arXiv PDF fetch (the D1 client wraps its
HTTP errors into plain `Exception`s) — raises the distinguished
`ServiceUnavailableError` instead of returning a per-document outcome,
with the raise preceding the ledger write so that document is never
ledger-marked; at the batch level (earlier documents free of such 503s)
the run keeps their outcomes and ledger marks, terminates the pool
(`aborted`), and exits non-zero.  Every other HTTP error is ledger-marked
and the batch continues — INCLUDING an upstream 503 from the R2 upload or
the D1 upsert, which arrives as a `ClientError` or a wrapped plain
`Exception` and is treated like any other per-document failure. -/
theorem c1_global_stop_503 (pre rest : List (String × PipelineEvent))
    (pid m : String) (u s : ℕ)
    (hpre : ∀ q ∈ pre, isRateLimited q.2 = false) :
    process_paper pid (.httpError 503 m u) = .serviceUnavailable ∧
    runBatch (pre ++ (pid, .httpError 503 m u) :: rest) =
      ⟨(runBatch pre).outcomes, (runBatch pre).ledger, true⟩ ∧
    exitCode (runBatch (pre ++ (pid, .httpError 503 m u) :: rest)) ≠ 0 ∧
    (¬ s = 503 →
      process_paper pid (.httpError s m u) =
        .returned ⟨pid, false, u, some m⟩ true ∧
      runBatch ((pid, .httpError s m u) :: rest) =
        ⟨⟨pid, false, u, some m⟩ :: (runBatch rest).outcomes,
          pid :: (runBatch rest).ledger, (runBatch rest).aborted⟩) ∧
    (process_paper pid (.upstreamHttpError 503 m u) =
        .returned ⟨pid, false, u, some m⟩ true ∧
      runBatch ((pid, .upstreamHttpError 503 m u) :: rest) =
        ⟨⟨pid, false, u, some m⟩ :: (runBatch rest).outcomes,
          pid :: (runBatch rest).ledger, (runBatch rest).aborted⟩) := by
  have h503 : process_paper pid (.httpError 503 m u) = .serviceUnavailable := rfl
  have htail : runBatch ((pid, PipelineEvent.httpError 503 m u) :: rest) =
      ⟨[], [], true⟩ := by
    simp only [runBatch, h503]
  have hrun : runBatch (pre ++ (pid, PipelineEvent.httpError 503 m u) :: rest) =
      ⟨(runBatch pre).outcomes, (runBatch pre).ledger, true⟩ := by
    rw [runBatch_append pre _ hpre, htail]
    simp
  refine ⟨h503, hrun, ?_, ?_, ?_⟩
  · rw [hrun]
    simp [exitCode]
  · intro hs
    have hpp : process_paper pid (.httpError s m u) =
        .returned ⟨pid, false, u, some m⟩ true := by
      simp [process_paper, hs]
    refine ⟨hpp, ?_⟩
    simp only [runBatch, hpp]
    simp
  · refine ⟨rfl, ?_⟩
    simp only [runBatch]
    rw [show process_paper pid (.upstreamHttpError 503 m u) =
      .returned ⟨pid, false, u, some m⟩ true from rfl]
    simp

/-- Witness for `c1_global_stop_503`: a successful document precedes the
503 document; the other-status clause is taken at HTTP 404. -/
theorem c1_witness :
    process_paper "2501.00002" (.httpError 503 "503 Server Error" 0) =
      .serviceUnavailable ∧
    runBatch [("2501.00001", .completed true false),
        ("2501.00002", .httpError 503 "503 Server Error" 0),
        ("2501.00003", .completed true true)] =
      ⟨(runBatch [("2501.00001", .completed true false)]).outcomes,
        (runBatch [("2501.00001", .completed true false)]).ledger, true⟩ ∧
    exitCode (runBatch [("2501.00001", .completed true false),
        ("2501.00002", .httpError 503 "503 Server Error" 0),
        ("2501.00003", .completed true true)]) ≠ 0 ∧
    (¬ 404 = 503 →
      process_paper "2501.00002" (.httpError 404 "503 Server Error" 0) =
        .returned ⟨"2501.00002", false, 0, some "503 Server Error"⟩ true ∧
      runBatch [("2501.00002", .httpError 404 "503 Server Error" 0),
          ("2501.00003", .completed true true)] =
        ⟨⟨"2501.00002", false, 0, some "503 Server Error"⟩ ::
            (runBatch [("2501.00003", .completed true true)]).outcomes,
          "2501.00002" :: (runBatch [("2501.00003", .completed true true)]).ledger,
          (runBatch [("2501.00003", .completed true true)]).aborted⟩) ∧
    (process_paper "2501.00002" (.upstreamHttpError 503 "503 Server Error" 0) =
        .returned ⟨"2501.00002", false, 0, some "503 Server Error"⟩ true ∧
      runBatch [("2501.00002", .upstreamHttpError 503 "503 Server Error" 0),
          ("2501.00003", .completed true true)] =
        ⟨⟨"2501.00002", false, 0, some "503 Server Error"⟩ ::
            (runBatch [("2501.00003", .completed true true)]).outcomes,
          "2501.00002" :: (runBatch [("2501.00003", .completed true true)]).ledger,
          (runBatch [("2501.00003", .completed true true)]).aborted⟩) :=
  c1_global_stop_503 [("2501.00001", .completed true false)]
    [("2501.00003", .completed true true)] "2501.00002" "503 Server Error" 0 404
    (by
      intro q hq
      simp only [List.mem_singleton] at hq
      subst hq
      rfl)

/-- C7: in automated batch mode every identifier in the failed ledger is
excluded from the worklist (and `worker_args` maps over exactly this list,
so it is never dispatched); single-document mode bypasses the ledger
exclusion. -/
theorem c7_worklist_excludes_failed (papers failed : List String) (max_count : ℕ)
    (pid p : String)
    (hp : p ∈ buildWorklist none papers failed max_count) :
    p ∉ failed ∧ buildWorklist (some pid) papers failed max_count = [pid] := by
  refine ⟨?_, rfl⟩
  unfold buildWorklist at hp
  have hp' := List.mem_of_mem_take hp
  have hmem := List.mem_filter.1 hp'
  simpa using hmem.2

/-- Witness for `c7_worklist_excludes_failed`: paper "b" survives the
filter against ledger `["a"]` and is indeed not in the ledger; forcing
paper "z" bypasses the ledger entirely. -/
theorem c7_witness :
    ("b" : String) ∉ (["a"] : List String) ∧
      buildWorklist (some "z") ["a", "b"] ["a"] 10 = ["z"] :=
  c7_worklist_excludes_failed ["a", "b"] ["a"] 10 "z" "b"
    (by simp [buildWorklist])

/-- C8: every per-document error other than the rate-limit signal is
caught at the boundary and converted to a returned outcome whose error
field is set exactly when the ledger is marked; selection finding neither
teaser nor architecture (`completed false false`) is not an exception —
it yields the outcome with error `"No figures"`, marks the ledger, leaves
success false, and the batch continues with the remaining documents. -/
theorem c8_error_outcome_boundary (pid : String) (evt : PipelineEvent)
    (rest : List (String × PipelineEvent))
    (h : isRateLimited evt = false) :
    ∃ r marked,
      process_paper pid evt = .returned r marked ∧
      (r.error.isSome = true ↔ marked = true) ∧
      (evt = .completed false false →
        r.error = some "No figures" ∧ marked = true ∧ r.success = false) ∧
      runBatch ((pid, evt) :: rest) =
        ⟨r :: (runBatch rest).outcomes,
          (if marked then [pid] else []) ++ (runBatch rest).ledger,
          (runBatch rest).aborted⟩ := by
  cases evt with
  | httpError s m u =>
    have hs : ¬ s = 503 := by simpa [isRateLimited] using h
    refine ⟨⟨pid, false, u, some m⟩, true, by simp [process_paper, hs], by simp,
      by simp, ?_⟩
    simp only [runBatch]
    rw [show process_paper pid (.httpError s m u) =
      .returned ⟨pid, false, u, some m⟩ true from by simp [process_paper, hs]]
    simp
  | httpErrorNoResponse m u =>
    exact ⟨⟨pid, false, u, some m⟩, true, rfl, by simp, by simp, by simp [runBatch, process_paper]⟩
  | upstreamHttpError s m u =>
    exact ⟨⟨pid, false, u, some m⟩, true, rfl, by simp, by simp, by simp [runBatch, process_paper]⟩
  | otherError m u =>
    exact ⟨⟨pid, false, u, some m⟩, true, rfl, by simp, by simp, by simp [runBatch, process_paper]⟩
  | completed t a =>
    cases t <;> cases a
    · exact ⟨⟨pid, false, 0, some "No figures"⟩, true, rfl, by simp,
        fun _ => ⟨rfl, rfl, rfl⟩, by simp [runBatch, process_paper]⟩
    · exact ⟨⟨pid, true, 1, none⟩, false, rfl, by simp, by simp,
        by simp [runBatch, process_paper]⟩
    · exact ⟨⟨pid, true, 1, none⟩, false, rfl, by simp, by simp,
        by simp [runBatch, process_paper]⟩
    · exact ⟨⟨pid, true, 2, none⟩, false, rfl, by simp, by simp,
        by simp [runBatch, process_paper]⟩

/-- Witness for `c8_error_outcome_boundary` at the "No figures" event with
one further document in the batch. -/
theorem c8_witness :
    ∃ r marked,
      process_paper "2501.00001" (.completed false false) = .returned r marked ∧
      (r.error.isSome = true ↔ marked = true) ∧
      (PipelineEvent.completed false false = .completed false false →
        r.error = some "No figures" ∧ marked = true ∧ r.success = false) ∧
      runBatch [("2501.00001", .completed false false),
          ("2501.00002", .completed true false)] =
        ⟨r :: (runBatch [("2501.00002", .completed true false)]).outcomes,
          (if marked then ["2501.00001"] else []) ++
            (runBatch [("2501.00002", .completed true false)]).ledger,
          (runBatch [("2501.00002", .completed true false)]).aborted⟩ :=
  c8_error_outcome_boundary "2501.00001" (.completed false false)
    [("2501.00002", .completed true false)] rfl

/-! ## Download rate limiter (extract_figures.py lines 23–52, driven from
`multiprocessing.Pool` in extract_figures_batch.py lines 210–215) -/

/-- `config.ARXIV_RATE_LIMIT` (default `3.5` seconds). -/
def ARXIV_RATE_LIMIT : ℚ := 7 / 2

/-- The module global `_last_pdf_download`, as initialized at import time
(`_last_pdf_download = 0`).  The batch orchestrator runs workers as
`multiprocessing.Pool` processes; module globals are NOT shared between
processes, so every pool worker holds its own copy of this state, starting
from this value and evolving independently of the other workers. -/
def workerInitialLast : ℚ := 0

/-- One `download_pdf` call as seen by the rate limiter: invoked at wall
time `now` with limiter state `last`, it sleeps `ARXIV_RATE_LIMIT −
(now − last)` when the elapsed time is under the interval, then performs
the GET (taking `dur` seconds) and stores the post-GET time back into the
global.  Returns (time the GET starts, new state). -/
def downloadStep (last now dur : ℚ) : ℚ × ℚ :=
  let start := if now - last < ARXIV_RATE_LIMIT then last + ARXIV_RATE_LIMIT else now
  (start, start + dur)

/-- GET start times of a sequence of `download_pdf` calls issued by ONE
worker process, threading that process's module global through; each
request is (wall time of the call, GET duration). -/
def workerStarts (last : ℚ) : List (ℚ × ℚ) → List ℚ
  | [] => []
  | (now, dur) :: rest =>
    (downloadStep last now dur).1 ::
      workerStarts (downloadStep last now dur).2 rest

/-- A download never starts less than the full interval after the stored
timestamp: either it waits until exactly `last + ARXIV_RATE_LIMIT`, or the
elapsed time already exceeded the interval. -/
theorem downloadStep_start_ge (last now dur : ℚ) :
    last + ARXIV_RATE_LIMIT ≤ (downloadStep last now dur).1 := by
  unfold downloadStep
  dsimp only
  split
  · exact le_refl _
  · rename_i hw
    push_neg at hw
    linarith

/-- The first GET of a worker's remaining requests starts at least the
interval after the current state. -/
theorem workerStarts_head_ge (last : ℚ) (reqs : List (ℚ × ℚ)) :
    ∀ s ∈ (workerStarts last reqs).head?, last + ARXIV_RATE_LIMIT ≤ s := by
  cases reqs with
  | nil => simp [workerStarts]
  | cons q rest =>
    obtain ⟨now, dur⟩ := q
    intro s hs
    simp only [workerStarts, List.head?_cons, Option.mem_def, Option.some.injEq] at hs
    rw [← hs]
    exact downloadStep_start_ge last now dur

/-- C9 (amended): within one worker process the rate limit holds — any two
consecutive downloads by the same worker start at least
`ARXIV_RATE_LIMIT` apart, whatever the call times, as long as GET
durations are nonnegative. -/
theorem c9_per_worker_rate_limit (last : ℚ) (reqs : List (ℚ × ℚ))
    (hdur : ∀ q ∈ reqs, 0 ≤ q.2) :
    List.Chain' (fun a b => a + ARXIV_RATE_LIMIT ≤ b) (workerStarts last reqs) := by
  induction reqs generalizing last with
  | nil => simp [workerStarts]
  | cons q rest ih =>
    obtain ⟨now, dur⟩ := q
    have hdq : 0 ≤ dur := hdur (now, dur) (by simp)
    have hrest : ∀ x ∈ rest, 0 ≤ x.2 := fun x hx => hdur x (by simp [hx])
    simp only [workerStarts]
    apply List.chain'_cons'.2
    refine ⟨?_, ih _ hrest⟩
    intro y hy
    have hhead := workerStarts_head_ge (downloadStep last now dur).2 rest y hy
    have hsnd : (downloadStep last now dur).2 = (downloadStep last now dur).1 + dur := rfl
    rw [hsnd] at hhead
    linarith

/-- Witness for `c9_per_worker_rate_limit`: one worker issuing two back-to-
back downloads. -/
theorem c9_witness :
    List.Chain' (fun a b => a + ARXIV_RATE_LIMIT ≤ b)
      (workerStarts workerInitialLast [(100, 1), (101, 2)]) :=
  c9_per_worker_rate_limit workerInitialLast [(100, 1), (101, 2)]
    (by
      intro q hq
      fin_cases hq <;> norm_num)

/-- C9 counterexample: two pool workers, each with its own fresh copy of
the module global (`multiprocessing` does not share it).  Worker 1 calls
`download_pdf` at wall time 100 and worker 2 at wall time 101.  Each sees
an elapsed time (100 resp. 101 seconds since ITS stored timestamp 0) far
above the interval, so neither blocks, and the two GETs start one second
apart — below the 3.5-second minimum.  The claim that the limit holds
globally across concurrent workers is false. -/
theorem c9_counterexample :
    workerStarts workerInitialLast [(100, 1)] = [100] ∧
    workerStarts workerInitialLast [(101, 1)] = [101] ∧
    ratAbs (101 - 100) < ARXIV_RATE_LIMIT := by
  refine ⟨?_, ?_, ?_⟩ <;>
    norm_num [workerStarts, downloadStep, workerInitialLast, ARXIV_RATE_LIMIT, ratAbs]

end AlphaScent
